import Mathlib

/-!
A shallow embedding of `baseclasses/utils/solverHistory.py` (classes
`HistoryVariable` and `SolverHistory`) and proofs about the claims of the
specification.

Modelling conventions:
* Python values that can flow through a history column are modelled by `PyVal`:
  the `None` sentinel, `int` (as `Int`), `float` (as `Rat`, which is exact on
  every value the development observes), and `str`.
* The variable types that the program itself uses (`int`, `float`, `str`) form
  the closed universe `PyType`; `type(value)` coercion is `pyConvert`.
* Format strings are represented symbolically by `FmtSpec`, covering exactly
  the template shapes the program builds: the default value formats
  `"{: 17.11e}"`, `"{: 5d}"`, `"{:^10}"`, the `Time` format `"{:9.3e}"`,
  the generic `"{}"`, and the derived header templates `"{:^Ns}"`.
  `applyFmt` evaluates a template on a value, returning `none` where CPython
  `str.format` would raise (`ValueError`/`TypeError`).
* Stateful methods are explicit state transformers; `time.time()` is threaded
  in as an explicit `now : Rat` argument; exceptions become the `PyErr` sum.
* Mutation of the caller-supplied `data` dictionary by `SolverHistory.write`
  (it pops consumed keys) is modelled by returning the final dictionary.
-/

/-- The closed universe of column value types the program exercises. -/
inductive PyType where
  | int
  | float
  | str
  deriving DecidableEq, Repr

/-- Python values stored in a history column: the `None` sentinel, ints,
floats (modelled exactly as rationals) and strings. -/
inductive PyVal where
  | none
  | int (n : Int)
  | float (q : Rat)
  | str (s : String)
  deriving DecidableEq, Repr

/-! ### Decimal digit strings (fuel-based so that the kernel can evaluate) -/

/-- One decimal digit as a character. -/
def digitChar (n : Nat) : Char := Char.ofNat (48 + n % 10)

/-- Decimal digits of a natural number, most significant first;
`fuel` bounds the recursion so the definition is structural. -/
def natDigitsAux : Nat → Nat → List Char
  | 0, _ => []
  | fuel + 1, n =>
    if n < 10 then [digitChar n]
    else natDigitsAux fuel (n / 10) ++ [digitChar (n % 10)]

def natDigits (n : Nat) : List Char := natDigitsAux (n + 1) n

/-- Decimal string of a natural number. -/
def natStr (n : Nat) : String := String.mk (natDigits n)

/-- Decimal string of an integer (the shape CPython `str(int)` produces). -/
def intStr (n : Int) : String :=
  (if n < 0 then "-" else "") ++ natStr n.natAbs

/-! ### Parsing (the `int(s)` / `float(s)` coercions on strings) -/

/-- Strip leading and trailing spaces, as `int`/`float` do on their argument. -/
def trimChars (cs : List Char) : List Char :=
  ((cs.dropWhile (· = ' ')).reverse.dropWhile (· = ' ')).reverse

/-- Split an optional leading sign from a character list. -/
def signSplit : List Char → Bool × List Char
  | '-' :: cs => (true, cs)
  | '+' :: cs => (false, cs)
  | cs => (false, cs)

def charDigit (c : Char) : Nat := c.toNat - 48

def digitsToNat (cs : List Char) : Nat :=
  cs.foldl (fun a c => a * 10 + charDigit c) 0

/-- Value of a nonempty all-digit character list. -/
def digitsVal? (cs : List Char) : Option Nat :=
  if cs ≠ [] ∧ cs.all Char.isDigit then some (digitsToNat cs) else Option.none

def signRat (neg : Bool) (q : Rat) : Rat := if neg then -q else q

/-- The `int(s)` coercion on strings: optional sign and a nonempty digit
string (a faithful restriction of CPython's grammar). -/
def pyParseInt (s : String) : Option Int :=
  let p := signSplit (trimChars s.data)
  (digitsVal? p.2).map fun n => if p.1 then -(n : Int) else (n : Int)

/-- The `float(s)` coercion on strings: optional sign, digits with an
optional decimal point (a faithful restriction of CPython's grammar). -/
def pyParseFloat (s : String) : Option Rat :=
  let p := signSplit (trimChars s.data)
  match p.2.splitOn '.' with
  | [ip] => (digitsVal? ip).map fun n => signRat p.1 (n : Rat)
  | [ip, fp] =>
    if (ip ≠ [] ∨ fp ≠ []) ∧ ip.all Char.isDigit ∧ fp.all Char.isDigit then
      some (signRat p.1
        ((digitsToNat ip : Rat) + (digitsToNat fp : Rat) / (10 : Rat) ^ fp.length))
    else Option.none
  | _ => Option.none

/-- `int(q)` on a float truncates toward zero. -/
def pyTrunc (q : Rat) : Int := Int.tdiv q.num (q.den : Int)

/-! ### `str(value)` and the symbolic format templates -/

/-- A simplified decimal rendering of a float; only the shape matters to the
development (no theorem constrains its digits). -/
def ratStr (q : Rat) : String :=
  if q.den = 1 then intStr q.num ++ ".0"
  else intStr q.num ++ "/" ++ natStr q.den

/-- `str(value)`. -/
def pyStr : PyVal → String
  | .none => "None"
  | .int n => intStr n
  | .float q => ratStr q
  | .str s => s

/-- `value(type)` coercion, i.e. `self._type(value)` in the source. A `none`
result models the `ValueError` CPython raises. The sentinel is filtered by
every caller before coercion. -/
def pyConvert : PyType → PyVal → Option PyVal
  | _, .none => Option.none
  | .int, .int n => some (.int n)
  | .int, .float q => some (.int (pyTrunc q))
  | .int, .str s => (pyParseInt s).map PyVal.int
  | .float, .int n => some (.float (n : Rat))
  | .float, .float q => some (.float q)
  | .float, .str s => (pyParseFloat s).map PyVal.float
  | .str, v => some (.str (pyStr v))

/-- A run of `n` spaces. -/
def spaces (n : Nat) : String := String.mk (List.replicate n ' ')

/-- Right-align `s` in a field of `w` characters (numeric format default). -/
def padLeftTo (w : Nat) (s : String) : String := spaces (w - s.length) ++ s

/-- Center `s` in a field of `w` characters, an extra space going right,
exactly as the `^` alignment of `str.format`. -/
def centerIn (w : Nat) (s : String) : String :=
  if w ≤ s.length then s
  else
    let total := w - s.length
    let l := total / 2
    spaces l ++ s ++ spaces (total - l)

/-- Left-pad a digit string with zeros to `w` characters. -/
def padZerosTo (w : Nat) (s : String) : String :=
  String.mk (List.replicate (w - s.length) '0') ++ s

/-- `10 ^ e` as a rational, for integer `e`. -/
def pow10Rat : Int → Rat
  | .ofNat k => (10 : Rat) ^ k
  | .negSucc k => 1 / (10 : Rat) ^ (k + 1)

/-- `10 ^ e ≤ q`, decided without rational powers of negative exponent. -/
def ratGE10 (q : Rat) (e : Int) : Bool := decide (pow10Rat e ≤ q)

/-- For `q > 0`, the exponent `e` with `10 ^ e ≤ q < 10 ^ (e + 1)`:
a digit-count estimate corrected by at most one in either direction. -/
def ratExp10 (q : Rat) : Int :=
  let e0 : Int := ((natDigits q.num.natAbs).length : Int) - ((natDigits q.den).length : Int)
  if ratGE10 q (e0 + 1) then e0 + 1
  else if ratGE10 q e0 then e0
  else e0 - 1

/-- Mantissa digits (as a natural of `prec + 1` digits) and exponent for the
scientific rendering of a positive rational, rounding half up. -/
def sciMantissaExp (q : Rat) (prec : Nat) : Nat × Int :=
  let e := ratExp10 q
  let scaled := q * pow10Rat ((prec : Int) - e)
  let m := (scaled + 1 / 2).floor.toNat
  if 10 ^ (prec + 1) ≤ m then (m / 10, e + 1) else (m, e)

/-- The exponent suffix `e±dd` of scientific notation. -/
def expString (e : Int) : String :=
  let a := natStr e.natAbs
  "e" ++ (if e < 0 then "-" else "+") ++ (if a.length < 2 then "0" ++ a else a)

/-- The `"{: W.Pe}"` / `"{:W.Pe}"` scientific format of `str.format`. -/
def sciFormat (spaceSign : Bool) (width prec : Nat) (q : Rat) : String :=
  let signStr := if q < 0 then "-" else if spaceSign then " " else ""
  let me := if q = 0 then ((0 : Nat), (0 : Int)) else sciMantissaExp |q| prec
  let ds := padZerosTo (prec + 1) (natStr me.1)
  let body :=
    String.mk (ds.data.take 1) ++
      (if prec = 0 then "" else "." ++ String.mk (ds.data.drop 1)) ++
      expString me.2
  padLeftTo width (signStr ++ body)

/-- The `"{: Wd}"` / `"{:Wd}"` integer format of `str.format`. -/
def intFormat (spaceSign : Bool) (width : Nat) (n : Int) : String :=
  let signStr := if n < 0 then "-" else if spaceSign then " " else ""
  padLeftTo width (signStr ++ natStr n.natAbs)

/-- The format templates the program builds, represented symbolically. -/
inductive FmtSpec where
  /-- `"{: W.Pe}"` when `spaceSign`, else `"{:W.Pe}"`. -/
  | sci (spaceSign : Bool) (width prec : Nat)
  /-- `"{: Wd}"` when `spaceSign`, else `"{:Wd}"`. -/
  | intD (spaceSign : Bool) (width : Nat)
  /-- `"{:^W}"`. -/
  | center (width : Nat)
  /-- `"{:^Ws}"`, the derived header template. -/
  | centerS (width : Nat)
  /-- `"{}"`. -/
  | plain
  deriving DecidableEq, Repr

/-- `template.format(value)`; `none` models the `ValueError`/`TypeError`
CPython raises on an incompatible template/value pair. -/
def applyFmt : FmtSpec → PyVal → Option String
  | .sci sp w p, .int n => some (sciFormat sp w p (n : Rat))
  | .sci sp w p, .float q => some (sciFormat sp w p q)
  | .sci _ _ _, _ => Option.none
  | .intD sp w, .int n => some (intFormat sp w n)
  | .intD _ _, _ => Option.none
  | .center _, .none => Option.none
  | .center w, v => some (centerIn w (pyStr v))
  | .centerS w, .str s => some (centerIn w s)
  | .centerS _, _ => Option.none
  | .plain, v => some (pyStr v)

/-- Templates that succeed on every (non-sentinel) value of a given type. -/
def fmtTotal : FmtSpec → PyType → Bool
  | .sci _ _ _, .int => true
  | .sci _ _ _, .float => true
  | .intD _ _, .int => true
  | .center _, _ => true
  | .centerS _, .str => true
  | .plain, _ => true
  | _, _ => false

/-- Whether a value is a (non-sentinel) value of the given type. -/
def valOfTypeB : PyType → PyVal → Bool
  | .int, .int _ => true
  | .float, .float _ => true
  | .str, .str _ => true
  | _, _ => false

/-- `varType()`: the default-constructed ("zero") value of a type. -/
def zeroVal : PyType → PyVal
  | .int => .int 0
  | .float => .float 0
  | .str => .str ""

/-- The per-type default value formats of `SolverHistory.__init__`
(`self._defaultFormat`). -/
def defaultFormat : PyType → FmtSpec
  | .float => .sci true 17 11
  | .int => .intD true 5
  | .str => .center 10

/-- The exceptions the program raises, with the data their messages carry. -/
inductive PyErr where
  /-- `TypeError` from `HistoryVariable.write`: the value, the variable and
  its declared type. -/
  | typeConversion (value : PyVal) (varName : String) (varType : PyType)
  /-- `TypeError` from `HistoryVariable.writeFullHistory`. -/
  | typeConversionBulk (varName : String) (varType : PyType)
  /-- `ValueError` from `SolverHistory.write`: leftover keys and the valid
  variable names. -/
  | unknownVariable (badKeys : List String) (validNames : List String)
  /-- `ValueError` from `SolverHistory.writeFullVariableHistory`. -/
  | unknownVariableBulk (name : String) (validNames : List String)
  /-- `ValueError` from `SolverHistory.printData`: the offending iteration
  index and the current iteration count. -/
  | outOfRange (badIter : Int) (iterCount : Nat)
  /-- `IndexError` from `HistoryVariable.getValue`. -/
  | indexError (iteration : Int) (varName : String)
  /-- `ValueError` from `SolverHistory.addVariable`: invalid format string. -/
  | invalidFormat (fmt : FmtSpec) (varType : PyType)
  /-- `ValueError` from `getFormattedHeaderString` with no header format. -/
  | noHeaderFormat (varName : String)
  /-- `ValueError` from `getFormattedValueString` with no value format. -/
  | noValueFormat (varName : String)
  /-- A `.format` call raised on the given variable's template. -/
  | formatFailure (varName : String)
  /-- `ValueError` from `max()` / `min()` on an empty selection. -/
  | emptyIterable
  deriving DecidableEq, Repr

/-! ### `HistoryVariable` -/

/-- The `HistoryVariable` class: one named, typed column. -/
structure HistoryVariable where
  name : String
  type : PyType
  valueFormat : Option FmtSpec
  headerFormat : Option FmtSpec
  data : List PyVal
  deriving DecidableEq, Repr

namespace HistoryVariable

/-- `HistoryVariable.reset`: clear the recorded data. -/
def reset (v : HistoryVariable) : HistoryVariable := { v with data := [] }

/-- `HistoryVariable.write`: append the sentinel unchanged, otherwise append
the coerced value; raise `TypeError` (leaving the data untouched) when the
coercion fails. -/
def write (v : HistoryVariable) (value : PyVal) : Except PyErr HistoryVariable :=
  match value with
  | .none => .ok { v with data := v.data ++ [PyVal.none] }
  | val =>
    match pyConvert v.type val with
    | some c => .ok { v with data := v.data ++ [c] }
    | Option.none => .error (.typeConversion val v.name v.type)

/-- Coerce a whole list, sentinels passing through; `none` on the first
inconvertible element. -/
def convertAll (t : PyType) : List PyVal → Option (List PyVal)
  | [] => some []
  | .none :: rest => (convertAll t rest).map (PyVal.none :: ·)
  | v :: rest =>
    match pyConvert t v with
    | some c => (convertAll t rest).map (c :: ·)
    | Option.none => Option.none

/-- `HistoryVariable.writeFullHistory`: replace the whole data sequence by
the coerced values; on failure the column is unchanged (the comprehension
raises before the assignment happens). -/
def writeFullHistory (v : HistoryVariable) (values : List PyVal) :
    Except PyErr HistoryVariable :=
  match convertAll v.type values with
  | some l => .ok { v with data := l }
  | Option.none => .error (.typeConversionBulk v.name v.type)

/-- Python list indexing with negative indices from the end. -/
def pyGet (l : List PyVal) (i : Int) : Option PyVal :=
  if 0 ≤ i then l.get? i.toNat
  else if i.natAbs ≤ l.length then l.get? (l.length - i.natAbs)
  else Option.none

/-- `HistoryVariable.getValue`. -/
def getValue (v : HistoryVariable) (iteration : Int) : Except PyErr PyVal :=
  match pyGet v.data iteration with
  | some x => .ok x
  | Option.none => .error (.indexError iteration v.name)

/-- `HistoryVariable.getFormattedHeaderString` (argument defaulting to the
variable's name). -/
def getFormattedHeaderString (v : HistoryVariable) (s : Option String) :
    Except PyErr String :=
  match v.headerFormat with
  | Option.none => .error (.noHeaderFormat v.name)
  | some f =>
    match applyFmt f (.str (s.getD v.name)) with
    | some r => .ok r
    | Option.none => .error (.formatFailure v.name)

/-- `HistoryVariable.getFormattedValueString`. -/
def getFormattedValueString (v : HistoryVariable) (val : PyVal) :
    Except PyErr String :=
  match v.valueFormat with
  | Option.none => .error (.noValueFormat v.name)
  | some f =>
    match applyFmt f val with
    | some r => .ok r
    | Option.none => .error (.formatFailure v.name)

/-- `HistoryVariable.getData` (the defensive copy is identity here). -/
def getData (v : HistoryVariable) : List PyVal := v.data

end HistoryVariable

/-! ### Ordered-dictionary helpers

Python `dict`s (the `data` argument of `write`, `self._variables`,
`self._printVariables`, `self._metadata`) are modelled as insertion-ordered
association lists with unique keys maintained by these operations. -/

/-- First value stored under a key. -/
def lookupAssoc {α : Type} : List (String × α) → String → Option α
  | [], _ => Option.none
  | p :: rest, k => if p.1 = k then some p.2 else lookupAssoc rest k

/-- `d[k] = v`: replace the first entry with the key (keeping its position,
as dict assignment does), or append a new entry. -/
def setAssoc {α : Type} : List (String × α) → String → α → List (String × α)
  | [], k, v => [(k, v)]
  | p :: rest, k, v => if p.1 = k then (k, v) :: rest else p :: setAssoc rest k v

/-- `d.pop(k)`: the popped value (if any) and the remaining entries. -/
def popAssoc {α : Type} : List (String × α) → String → Option α × List (String × α)
  | [], _ => (Option.none, [])
  | p :: rest, k =>
    if p.1 = k then (some p.2, rest)
    else ((popAssoc rest k).1, p :: (popAssoc rest k).2)

/-- First variable with the given name (the `self._variables[name]` lookup). -/
def lookupVar : List HistoryVariable → String → Option HistoryVariable
  | [], _ => Option.none
  | v :: rest, k => if v.name = k then some v else lookupVar rest k

/-- `self._variables[name] = v`: replace in place or append. -/
def setVar : List HistoryVariable → HistoryVariable → List HistoryVariable
  | [], v => [v]
  | w :: rest, v => if w.name = v.name then v :: rest else w :: setVar rest v

/-! ### `SolverHistory` -/

/-- The result of an `addVariable` call: registered, duplicate-name warning
(a no-op), or a raised `ValueError`. -/
inductive AddRes where
  | added
  | warned
  | failed (e : PyErr)
  deriving DecidableEq, Repr

/-- The `SolverHistory` class state. `startTime = -1` is the unset sentinel. -/
structure SolverHistory where
  /-- `self._variables`: the ordered registered columns. -/
  vars : List HistoryVariable
  printVariables : List (String × Bool)
  metadata : List (String × PyVal)
  iter : Nat
  startTime : Rat
  includeIter : Bool
  includeTime : Bool
  deriving DecidableEq, Repr

namespace SolverHistory

/-- `SolverHistory.getVariables`: the registered variable names in order. -/
def variableNames (h : SolverHistory) : List String :=
  h.vars.map fun v => v.name

/-- `SolverHistory.addVariable`. On a duplicate name without `overwrite` it
warns and leaves the state untouched; it validates the chosen value format on
the type's zero value, derives the header template (centred in
`columnWidth + 4`), and registers the column and its print flag. -/
def addVariable (h : SolverHistory) (name : String) (varType : PyType)
    (printVar : Bool) (valueFormat : Option FmtSpec) (overwrite : Bool) :
    SolverHistory × AddRes :=
  if overwrite = false ∧ name ∈ h.variableNames then (h, .warned)
  else
    let vf := valueFormat.getD (defaultFormat varType)
    match applyFmt vf (zeroVal varType) with
    | Option.none => (h, .failed (.invalidFormat vf varType))
    | some testString =>
      let columnWidth := max testString.length name.length
      ({ h with
          vars := setVar h.vars
            ⟨name, varType, some vf, some (.centerS (columnWidth + 4)), []⟩,
          printVariables := setAssoc h.printVariables name printVar },
        .added)

/-- `SolverHistory.__init__`: empty state, then the automatic `Iter` and
`Time` columns (whose `addVariable` calls always succeed). -/
def init (includeIter includeTime : Bool) : SolverHistory :=
  let h0 : SolverHistory :=
    { vars := [], printVariables := [], metadata := [], iter := 0,
      startTime := -1, includeIter := includeIter, includeTime := includeTime }
  let h1 := if includeIter then
      (h0.addVariable "Iter" .int true Option.none false).1
    else h0
  if includeTime then
    (h1.addVariable "Time" .float true (some (.sci false 9 3)) false).1
  else h1

/-- `SolverHistory.reset`. -/
def reset (h : SolverHistory) (clearMetadata : Bool) : SolverHistory :=
  { h with
      iter := 0
      startTime := -1
      vars := h.vars.map HistoryVariable.reset
      metadata := if clearMetadata then [] else h.metadata }

/-- `SolverHistory.addMetadata`. -/
def addMetadata (h : SolverHistory) (name : String) (d : PyVal) : SolverHistory :=
  { h with metadata := setAssoc h.metadata name d }

/-- `SolverHistory.startTiming`, with `time.time()` passed in as `now`. -/
def startTiming (h : SolverHistory) (now : Rat) : SolverHistory :=
  { h with startTime := now }

/-- The `Time`/`Iter` injection at the top of `SolverHistory.write`:
second half, `data["Iter"] = self._iter`. -/
def augmentIter (h : SolverHistory) (data : List (String × PyVal)) :
    SolverHistory × List (String × PyVal) :=
  if h.includeIter then (h, setAssoc data "Iter" (.int (h.iter : Int))) else (h, data)

/-- The `Time`/`Iter` injection at the top of `SolverHistory.write`:
on the first call start timing and record `0.0`, later record `now − start`. -/
def augmentData (h : SolverHistory) (now : Rat) (data : List (String × PyVal)) :
    SolverHistory × List (String × PyVal) :=
  if h.includeTime then
    if h.startTime < 0 then
      augmentIter (h.startTiming now) (setAssoc data "Time" (.float 0))
    else
      augmentIter h (setAssoc data "Time" (.float (now - h.startTime)))
  else augmentIter h data

/-- One loop step of `SolverHistory.write`: pop the variable's key (an absent
key writes the sentinel). -/
def consume (v : HistoryVariable) : Option PyVal → Except PyErr HistoryVariable
  | Option.none => v.write PyVal.none
  | some val => v.write val

/-- The `for variable in self._variables.values()` loop of `write`: each
variable pops and writes its key; a raised `TypeError` stops the loop with the
already-written prefix kept (no rollback). Returns the updated variables, the
remaining dictionary and the error, if any. -/
def writeLoop : List HistoryVariable → List (String × PyVal) →
    List HistoryVariable × List (String × PyVal) × Option PyErr
  | [], data => ([], data, Option.none)
  | v :: rest, data =>
    match consume v (popAssoc data v.name).1 with
    | .ok v' =>
      let r := writeLoop rest (popAssoc data v.name).2
      (v' :: r.1, r.2.1, r.2.2)
    | .error e => (v :: rest, (popAssoc data v.name).2, some e)

/-- The tail of `SolverHistory.write` after the column loop: a raised
`TypeError` propagates; otherwise leftover keys raise `ValueError`
(`UnknownVariable`), and only a fully successful call increments the
iteration counter. -/
def finishWrite (h2 : SolverHistory) (d2 : List (String × PyVal)) :
    Option PyErr → SolverHistory × List (String × PyVal) × Except PyErr Unit
  | some e => (h2, d2, .error e)
  | Option.none =>
    if d2.isEmpty then ({ h2 with iter := h2.iter + 1 }, d2, .ok ())
    else (h2, d2, .error (.unknownVariable (d2.map Prod.fst) h2.variableNames))

/-- `SolverHistory.write`. Returns the state after the call (also on failure:
the mutations already performed persist), the remaining caller dictionary, and
the outcome. -/
def write (h : SolverHistory) (now : Rat) (data : List (String × PyVal)) :
    SolverHistory × List (String × PyVal) × Except PyErr Unit :=
  finishWrite
    { (augmentData h now data).1 with
        vars := (writeLoop (augmentData h now data).1.vars (augmentData h now data).2).1 }
    (writeLoop (augmentData h now data).1.vars (augmentData h now data).2).2.1
    (writeLoop (augmentData h now data).1.vars (augmentData h now data).2).2.2

/-- `SolverHistory.writeFullVariableHistory`. -/
def writeFullVariableHistory (h : SolverHistory) (name : String)
    (values : List PyVal) : SolverHistory × Except PyErr Unit :=
  match lookupVar h.vars name with
  | Option.none => (h, .error (.unknownVariableBulk name h.variableNames))
  | some v =>
    match v.writeFullHistory values with
    | .ok v' => ({ h with vars := setVar h.vars v' }, .ok ())
    | .error e => (h, .error e)

/-- The `_variablesToPrint` property: the flagged variables in flag order. -/
def variablesToPrint (h : SolverHistory) : List HistoryVariable :=
  h.printVariables.filterMap fun p =>
    if p.2 then lookupVar h.vars p.1 else Option.none

/-- One cell of a printed row: sentinel renders a centred `"-"`, otherwise the
value string re-centred through the header template. -/
def renderCell (v : HistoryVariable) (i : Int) : Except PyErr String := do
  let d ← v.getValue i
  match d with
  | .none => v.getFormattedHeaderString (some "-")
  | val => do
    let s ← v.getFormattedValueString val
    v.getFormattedHeaderString (some s)

/-- One printed row of `printData`. -/
def renderLine (h : SolverHistory) (i : Int) : Except PyErr String := do
  let cells ← (variablesToPrint h).mapM fun v => renderCell v i
  pure (cells.foldl (fun acc c => acc ++ c ++ "|") "|")

/-- The `iters` argument of `printData`: omitted, a single int, or a list. -/
inductive IterArg where
  | omitted
  | single (i : Int)
  | several (l : List Int)
  deriving DecidableEq, Repr

/-- `printData`'s normalization of its argument. -/
def normalizeIters : IterArg → List Int
  | .omitted => [-1]
  | .single i => [i]
  | .several l => l

/-- `max` of a nonempty selection (`listMax [] = 0` is never consulted:
`printData` models the empty-selection `ValueError` separately). -/
def listMax : List Int → Int
  | [] => 0
  | [x] => x
  | x :: y :: rest => max x (listMax (y :: rest))

/-- `min` of a nonempty selection. -/
def listMin : List Int → Int
  | [] => 0
  | [x] => x
  | x :: y :: rest => min x (listMin (y :: rest))

/-- `SolverHistory.printData`: bounds-check the requested indices against the
iteration count, then render the selected rows (returned rather than printed). -/
def printData (h : SolverHistory) (arg : IterArg) : Except PyErr (List String) :=
  let iters := normalizeIters arg
  if iters.isEmpty then .error .emptyIterable
  else if listMax iters ≥ (h.iter : Int) ∨ listMin iters < -(h.iter : Int) then
    .error (.outOfRange
      (if listMax iters ≥ (h.iter : Int) then listMax iters else listMin iters)
      h.iter)
  else iters.mapM (renderLine h)

/-- `SolverHistory.getData`. -/
def getData (h : SolverHistory) : List (String × List PyVal) :=
  h.vars.map fun v => (v.name, v.data)

/-- `SolverHistory.getMetadata`. -/
def getMetadata (h : SolverHistory) : List (String × PyVal) := h.metadata

/-- `SolverHistory.getIter`. -/
def getIter (h : SolverHistory) : Nat := h.iter

end SolverHistory

/-! ### `save`: path normalization and payload shape -/

/-- Index of the last occurrence of a character. -/
def rfindChar : List Char → Char → Option Nat
  | [], _ => Option.none
  | c' :: rest, c =>
    match rfindChar rest c with
    | some i => some (i + 1)
    | Option.none => if c' = c then some 0 else Option.none

/-- `os.path.splitext` on POSIX paths: split at the last `.` that lies after
the last `/` and after at least one non-dot character of the basename
(so leading dots of a hidden file never start an extension). -/
def pySplitext (p : String) : String × String :=
  let cs := p.data
  match rfindChar cs '.' with
  | Option.none => (p, "")
  | some di =>
    let start := match rfindChar cs '/' with
      | some si => si + 1
      | Option.none => 0
    if start ≤ di ∧ ((cs.take di).drop start).any (fun c => c ≠ '.') then
      (String.mk (cs.take di), String.mk (cs.drop di))
    else (p, "")

/-- The two members of the pickled payload. -/
inductive SaveEntry where
  | dataEntry (d : List (String × List PyVal))
  | metaEntry (m : List (String × PyVal))
  deriving DecidableEq, Repr

namespace SolverHistory

/-- `SolverHistory.save`: the written file name (extension replaced by
`.pkl`) and the serialized two-key payload `{data, metadata}`. -/
def save (h : SolverHistory) (fileName : String) :
    String × List (String × SaveEntry) :=
  ((pySplitext fileName).1 ++ ".pkl",
   [("data", .dataEntry h.getData), ("metadata", .metaEntry h.getMetadata)])

end SolverHistory

/-! ### Auxiliary predicates and iterated operations used by the claims -/

namespace SolverHistory

/-- A variable can consume a popped dictionary entry without raising: the key
is absent (the sentinel is written), the value is the sentinel, or the value
coerces to the declared type. -/
def canConsume (v : HistoryVariable) : Option PyVal → Bool
  | Option.none => true
  | some PyVal.none => true
  | some val => (pyConvert v.type val).isSome

/-- A sequence of `write` calls (each with its own clock reading), stopping
with `none` on the first failed write. -/
def writeMany : SolverHistory → List (Rat × List (String × PyVal)) → Option SolverHistory
  | h, [] => some h
  | h, r :: rest =>
    match (h.write r.1 r.2).2.2 with
    | .ok _ => writeMany (h.write r.1 r.2).1 rest
    | .error _ => Option.none

/-- A printable column in the shape `addVariable` plus `n` lockstep `write`
calls produce it: `n` recorded elements, each the sentinel or a value of the
declared type, and templates valid for the type. -/
def hvPrintableWF (n : Nat) (v : HistoryVariable) : Bool :=
  v.data.length = n &&
  v.data.all (fun x => (x matches PyVal.none) || valOfTypeB v.type x) &&
  (match v.headerFormat with
   | some f => fmtTotal f .str
   | Option.none => false) &&
  (match v.valueFormat with
   | some f => fmtTotal f v.type
   | Option.none => false)

/-- All printed columns are well-formed lockstep columns. -/
def printableWF (h : SolverHistory) : Bool :=
  (variablesToPrint h).all (hvPrintableWF h.iter)

end SolverHistory

/-! ### Concrete states used to instantiate the theorems -/

/-- A history with tracking disabled and one int column `x`. -/
def Hx : SolverHistory :=
  ((SolverHistory.init false false).addVariable "x" .int false Option.none false).1

/-- A history with tracking disabled and one float column `x`. -/
def Hxf : SolverHistory :=
  ((SolverHistory.init false false).addVariable "x" .float false Option.none false).1

/-- Default history (with `Iter` and `Time`) plus a float column `x`. -/
def Wc1 : SolverHistory :=
  ((SolverHistory.init true true).addVariable "x" .float false Option.none false).1

/-- The final state of two successful writes on `Wc1`. -/
def Wc1final : SolverHistory :=
  (Wc1.writeMany [((0 : Rat), [("x", PyVal.float 2)]), ((5 : Rat), [])]).getD
    (SolverHistory.init true true)

/-- Default history plus a printed int column `x`. -/
def Wc10 : SolverHistory :=
  ((SolverHistory.init true true).addVariable "x" .int false Option.none false).1

/-- A printable three-row history: one int column `x` holding `1, 2, 3`. -/
def H3 : SolverHistory :=
  let h0 := SolverHistory.init false false
  let h1 := (h0.addVariable "x" .int true Option.none false).1
  let h2 := (h1.write 0 [("x", PyVal.int 1)]).1
  let h3 := (h2.write 0 [("x", PyVal.int 2)]).1
  (h3.write 0 [("x", PyVal.int 3)]).1

/-- A ragged history: printed column `y` was registered after one row had
already been written, so it holds fewer rows than the iteration count. -/
def Hc4 : SolverHistory :=
  let h0 := SolverHistory.init false false
  let h1 := (h0.addVariable "x" .int true Option.none false).1
  let h2 := (h1.write 0 [("x", PyVal.int 1)]).1
  (h2.addVariable "y" .int true Option.none false).1

/-- The float `3.5` of the round-trip example, built directly so that its
numerator and denominator are literals. -/
def rat7over2 : Rat := ⟨7, 2, by decide, by decide⟩

/-! ## Basic lemmas about the dictionary model -/

lemma lookupVar_name : ∀ {vs : List HistoryVariable} {k : String} {v : HistoryVariable},
    lookupVar vs k = some v → v.name = k
  | [], _, _, h => by simp [lookupVar] at h
  | w :: rest, k, v, h => by
    by_cases hw : w.name = k
    · simp [lookupVar, hw] at h
      exact h ▸ hw
    · rw [lookupVar, if_neg hw] at h
      exact lookupVar_name h

lemma lookupVar_setVar_self : ∀ (vs : List HistoryVariable) (w : HistoryVariable),
    lookupVar (setVar vs w) w.name = some w
  | [], w => by simp [setVar, lookupVar]
  | u :: rest, w => by
    by_cases hu : u.name = w.name
    · simp [setVar, hu, lookupVar]
    · rw [setVar, if_neg hu, lookupVar, if_neg hu]
      exact lookupVar_setVar_self rest w

lemma lookupAssoc_map_data : ∀ (vs : List HistoryVariable) (k : String),
    lookupAssoc (vs.map fun v => (v.name, v.data)) k =
      (lookupVar vs k).map fun v => v.data
  | [], _ => rfl
  | v :: rest, k => by
    by_cases hv : v.name = k
    · simp [lookupAssoc, lookupVar, hv]
    · simp only [List.map_cons, lookupAssoc, lookupVar, if_neg hv]
      exact lookupAssoc_map_data rest k

lemma lookupAssoc_setAssoc_self {α : Type} : ∀ (l : List (String × α)) (k : String) (v : α),
    lookupAssoc (setAssoc l k v) k = some v
  | [], _, _ => by simp [setAssoc, lookupAssoc]
  | p :: rest, k, v => by
    by_cases hp : p.1 = k
    · simp [setAssoc, hp, lookupAssoc]
    · rw [setAssoc, if_neg hp, lookupAssoc, if_neg hp]
      exact lookupAssoc_setAssoc_self rest k v

lemma lookupAssoc_setAssoc_ne {α : Type} {k' k : String} (hk : k' ≠ k) :
    ∀ (l : List (String × α)) (v : α),
      lookupAssoc (setAssoc l k v) k' = lookupAssoc l k'
  | [], v => by simp [setAssoc, lookupAssoc, Ne.symm hk]
  | p :: rest, v => by
    by_cases hp : p.1 = k
    · simp [setAssoc, hp, lookupAssoc, Ne.symm hk]
    · rw [setAssoc, if_neg hp, lookupAssoc, lookupAssoc]
      by_cases hp' : p.1 = k'
      · simp [hp']
      · simp only [if_neg hp']
        exact lookupAssoc_setAssoc_ne hk rest v

lemma setAssoc_setAssoc {α : Type} : ∀ (l : List (String × α)) (k : String) (a b : α),
    setAssoc (setAssoc l k a) k b = setAssoc l k b
  | [], _, _, _ => by simp [setAssoc]
  | p :: rest, k, a, b => by
    by_cases hp : p.1 = k
    · simp [setAssoc, hp]
    · rw [setAssoc, if_neg hp, setAssoc, if_neg hp, setAssoc, if_neg hp]
      rw [setAssoc_setAssoc rest k a b]

lemma popAssoc_fst {α : Type} : ∀ (l : List (String × α)) (k : String),
    (popAssoc l k).1 = lookupAssoc l k
  | [], _ => rfl
  | p :: rest, k => by
    by_cases hp : p.1 = k
    · simp [popAssoc, lookupAssoc, hp]
    · rw [popAssoc, if_neg hp, lookupAssoc, if_neg hp]
      exact popAssoc_fst rest k

lemma popAssoc_lookup_ne {α : Type} {k' k : String} (hk : k' ≠ k) :
    ∀ (l : List (String × α)),
      lookupAssoc (popAssoc l k).2 k' = lookupAssoc l k'
  | [] => rfl
  | p :: rest => by
    by_cases hp : p.1 = k
    · have hp' : ¬p.1 = k' := by rw [hp]; exact Ne.symm hk
      simp only [popAssoc, if_pos hp, lookupAssoc, if_neg hp']
    · simp only [popAssoc, if_neg hp, lookupAssoc]
      by_cases hp' : p.1 = k'
      · simp [hp']
      · simp only [if_neg hp']
        exact popAssoc_lookup_ne hk rest

lemma lookupAssoc_eq_none {α : Type} : ∀ {l : List (String × α)} {k : String},
    k ∉ l.map Prod.fst → lookupAssoc l k = Option.none
  | [], _, _ => rfl
  | p :: rest, k, h => by
    have h1 : ¬p.1 = k := fun hp => h (by simp [hp])
    rw [lookupAssoc, if_neg h1]
    exact lookupAssoc_eq_none fun hm => h (by simp [hm])

lemma popAssoc_eq_filter {α : Type} : ∀ {l : List (String × α)} (k : String),
    (l.map Prod.fst).Nodup →
    (popAssoc l k).2 = l.filter fun p => !(decide (p.1 = k))
  | [], _, _ => rfl
  | p :: rest, k, hn => by
    simp only [List.map_cons, List.nodup_cons] at hn
    by_cases hp : p.1 = k
    · rw [popAssoc, if_pos hp]
      have : ∀ q ∈ rest, (!(decide (q.1 = k))) = true := by
        intro q hq
        simp only [Bool.not_eq_eq_eq_not, Bool.not_true, decide_eq_false_iff_not]
        intro hqk
        exact hn.1 (hp ▸ hqk ▸ List.mem_map_of_mem Prod.fst hq)
      rw [List.filter_cons, if_neg (by simp [hp]), List.filter_eq_self.mpr this]
    · rw [popAssoc, if_neg hp, List.filter_cons, if_pos (by simp [hp])]
      rw [popAssoc_eq_filter k hn.2]

lemma filter_keys_sublist {α : Type} (l : List (String × α)) (p : String × α → Bool) :
    ((l.filter p).map Prod.fst).Sublist (l.map Prod.fst) :=
  (List.filter_sublist l).map Prod.fst

lemma lookupAssoc_filter_ne {α : Type} {k' k : String} (hk : k' ≠ k) :
    ∀ (l : List (String × α)),
      lookupAssoc (l.filter fun p => !(decide (p.1 = k))) k' = lookupAssoc l k'
  | [] => rfl
  | p :: rest => by
    by_cases hp : p.1 = k
    · have hp' : ¬p.1 = k' := by rw [hp]; exact Ne.symm hk
      rw [List.filter_cons, if_neg (by simp [hp]), lookupAssoc, if_neg hp']
      exact lookupAssoc_filter_ne hk rest
    · rw [List.filter_cons, if_pos (by simp [hp]), lookupAssoc, lookupAssoc]
      by_cases hp' : p.1 = k'
      · simp [hp']
      · simp only [if_neg hp']
        exact lookupAssoc_filter_ne hk rest

lemma lookupAssoc_filter_self {α : Type} (l : List (String × α)) (k : String) :
    lookupAssoc (l.filter fun p => !(decide (p.1 = k))) k = Option.none := by
  apply lookupAssoc_eq_none
  intro hmem
  rcases List.mem_map.mp hmem with ⟨q, hq, hqk⟩
  have := List.of_mem_filter hq
  simp [hqk] at this

lemma setAssoc_keys_mem {α : Type} : ∀ {l : List (String × α)} {k k' : String} {v : α},
    k' ∈ (setAssoc l k v).map Prod.fst → k' ∈ l.map Prod.fst ∨ k' = k
  | [], k, k', v, h => by
    simp [setAssoc] at h
    exact Or.inr h
  | p :: rest, k, k', v, h => by
    by_cases hp : p.1 = k
    · rw [setAssoc, if_pos hp] at h
      simp only [List.map_cons, List.mem_cons] at h ⊢
      rcases h with rfl | h
      · exact Or.inr rfl
      · exact Or.inl (Or.inr h)
    · rw [setAssoc, if_neg hp] at h
      simp only [List.map_cons, List.mem_cons] at h ⊢
      rcases h with rfl | h
      · exact Or.inl (Or.inl rfl)
      · rcases setAssoc_keys_mem h with h' | rfl
        · exact Or.inl (Or.inr h')
        · exact Or.inr rfl

lemma setAssoc_keys_nodup {α : Type} : ∀ {l : List (String × α)} (k : String) (v : α),
    (l.map Prod.fst).Nodup → ((setAssoc l k v).map Prod.fst).Nodup
  | [], k, v, _ => by simp [setAssoc]
  | p :: rest, k, v, hn => by
    simp only [List.map_cons, List.nodup_cons] at hn
    by_cases hp : p.1 = k
    · rw [setAssoc, if_pos hp]
      simp only [List.map_cons, List.nodup_cons]
      exact ⟨hp ▸ hn.1, hn.2⟩
    · rw [setAssoc, if_neg hp]
      simp only [List.map_cons, List.nodup_cons]
      refine ⟨fun hmem => ?_, setAssoc_keys_nodup k v hn.2⟩
      rcases setAssoc_keys_mem hmem with hmem' | rfl
      · exact hn.1 hmem'
      · exact hp rfl

lemma setAssoc_mem_keys {α : Type} : ∀ {l : List (String × α)} (k : String) (v : α) {k' : String},
    k' ∈ l.map Prod.fst → k' ∈ (setAssoc l k v).map Prod.fst
  | [], k, v, k', h => by simp at h
  | p :: rest, k, v, k', h => by
    by_cases hp : p.1 = k
    · rw [setAssoc, if_pos hp]
      simp only [List.map_cons, List.mem_cons] at h ⊢
      rcases h with rfl | h
      · exact Or.inl hp
      · exact Or.inr h
    · rw [setAssoc, if_neg hp]
      simp only [List.map_cons, List.mem_cons] at h ⊢
      rcases h with rfl | h
      · exact Or.inl rfl
      · exact Or.inr (setAssoc_mem_keys k v h)

/-! ## C9: `reset` frame condition -/

/-- C9: `reset(clearMetadata)` zeroes the iteration counter, restores the
start-time sentinel `-1`, and empties every column's data while preserving
every column's name, type, value format and header format, the print flags
and the tracking switches; the metadata mapping is cleared exactly when
`clearMetadata` is true. -/
theorem c9_reset_frame (h : SolverHistory) (c : Bool) :
    (h.reset c).getIter = 0 ∧
    (h.reset c).startTime = -1 ∧
    (h.reset c).vars = (h.vars.map fun v =>
      { name := v.name, type := v.type, valueFormat := v.valueFormat,
        headerFormat := v.headerFormat, data := [] }) ∧
    (h.reset c).printVariables = h.printVariables ∧
    (h.reset c).includeIter = h.includeIter ∧
    (h.reset c).includeTime = h.includeTime ∧
    (h.reset false).metadata = h.metadata ∧
    (h.reset true).metadata = [] :=
  ⟨rfl, rfl, rfl, rfl, rfl, rfl, rfl, rfl⟩

/-! ## C5: duplicate registration is a warned no-op -/

/-- C5: `addVariable` on an already-registered name with `overwrite = false`
returns the warning outcome and the state completely unchanged (so the
existing column keeps its type, formats, data and print flag). -/
theorem c5_duplicate_noop (h : SolverHistory) (name : String) (t : PyType)
    (p : Bool) (f : Option FmtSpec) (hmem : name ∈ h.variableNames) :
    h.addVariable name t p f false = (h, .warned) := by
  rw [SolverHistory.addVariable, if_pos ⟨rfl, hmem⟩]

/-- Witness for C5: registering `x : int` and then `x : float` without
`overwrite` warns and leaves `x` with type `int` and the state untouched. -/
theorem c5_duplicate_noop_witness :
    Hx.addVariable "x" .float false Option.none false = (Hx, .warned) ∧
    lookupVar Hx.vars "x" =
      some ⟨"x", .int, some (.intD true 5), some (.centerS 9), []⟩ :=
  ⟨c5_duplicate_noop Hx "x" .float false Option.none (by decide), by decide⟩

/-! ## C3: the `HistoryVariable.write` coercion contract -/

/-- C3: `HistoryVariable.write` appends the sentinel unchanged; appends
exactly one (coerced) element when the value coerces to the declared type,
growing the data by one; and raises a `TypeError` naming the value, the
variable and the declared type — leaving the data untouched — when the
coercion is impossible. -/
theorem c3_column_write (v : HistoryVariable) (val : PyVal) :
    (val = PyVal.none → v.write val = .ok { v with data := v.data ++ [PyVal.none] }) ∧
    (∀ c, val ≠ PyVal.none → pyConvert v.type val = some c →
      v.write val = .ok { v with data := v.data ++ [c] } ∧
      (v.data ++ [c]).length = v.data.length + 1) ∧
    (val ≠ PyVal.none → pyConvert v.type val = Option.none →
      v.write val = .error (.typeConversion val v.name v.type)) := by
  refine ⟨fun hv => ?_, fun c hne hc => ⟨?_, by simp⟩, fun hne hc => ?_⟩
  · subst hv; rfl
  · cases val
    · exact absurd rfl hne
    all_goals simp [HistoryVariable.write, hc]
  · cases val
    · exact absurd rfl hne
    all_goals simp [HistoryVariable.write, hc]

/-- Witness for C3: on an int column, writing the string `"a"` fails with the
`TypeError` and writing the string `" 12 "` appends the coerced int `12`. -/
theorem c3_column_write_witness :
    HistoryVariable.write ⟨"x", .int, Option.none, Option.none, []⟩ (.str "a") =
      .error (.typeConversion (.str "a") "x" .int) ∧
    HistoryVariable.write ⟨"x", .int, Option.none, Option.none, []⟩ (.str " 12 ") =
      .ok ⟨"x", .int, Option.none, Option.none, [.int 12]⟩ :=
  ⟨(c3_column_write _ _).2.2 (by decide) (by decide),
   ((c3_column_write _ _).2.1 (.int 12) (by decide) (by decide)).1⟩

/-! ## C7: bulk-write round trip preserves sentinels positionally -/

/-- C7: on any column registered with declared type float, a successful
`writeFullVariableHistory` of `[1.0, None, 3.5]` replaces the column's data
(whatever it held before) by exactly that list — non-sentinel elements coerced
(float-to-float coercion is the identity), the sentinel kept at its position —
and `getData()` reports exactly that list for the column. -/
theorem c7_roundtrip (h : SolverHistory) (name : String)
    (ht : ((lookupVar h.vars name).map fun v => v.type) = some PyType.float) :
    ∃ h', h.writeFullVariableHistory name
        [.float 1, PyVal.none, .float rat7over2] = (h', .ok ()) ∧
      lookupAssoc h'.getData name =
        some [.float 1, PyVal.none, .float rat7over2] := by
  rcases Option.map_eq_some'.mp ht with ⟨v, hv, htype⟩
  have hconv : HistoryVariable.convertAll v.type
      [.float 1, PyVal.none, .float rat7over2] =
      some [.float 1, PyVal.none, .float rat7over2] := by
    rw [htype]; rfl
  have hwf : v.writeFullHistory [.float 1, PyVal.none, .float rat7over2] =
      .ok { v with data := [.float 1, PyVal.none, .float rat7over2] } := by
    rw [HistoryVariable.writeFullHistory, hconv]
  apply Exists.intro ({ h with vars := setVar h.vars { v with data := [.float 1, PyVal.none, .float rat7over2] } } : SolverHistory)
  constructor
  · simp only [SolverHistory.writeFullVariableHistory, hv, hwf]
  · rw [SolverHistory.getData, lookupAssoc_map_data]
    have hname : v.name = name := lookupVar_name hv
    rw [← hname]
    rw [show lookupVar (setVar h.vars { v with data := [.float 1, PyVal.none, .float rat7over2] }) v.name = some { v with data := [.float 1, PyVal.none, .float rat7over2] } from lookupVar_setVar_self h.vars _]
    rfl

/-- Witness for C7: on the concrete history with a float column `x`, the
round trip returns exactly `[1.0, None, 3.5]`. -/
theorem c7_roundtrip_witness :
    ∃ h', Hxf.writeFullVariableHistory "x"
        [.float 1, PyVal.none, .float rat7over2] = (h', .ok ()) ∧
      lookupAssoc h'.getData "x" =
        some [.float 1, PyVal.none, .float rat7over2] :=
  c7_roundtrip Hxf "x" (by decide)

lemma spaces_length (n : Nat) : (spaces n).length = n := by
  show (List.replicate n ' ').length = n
  simp

lemma centerIn_length (w : Nat) (s : String) :
    (centerIn w s).length = max w s.length := by
  rw [centerIn]
  split
  · omega
  · simp only [String.length_append, spaces_length]
    omega

/-! ## C6: header-template derivation -/

/-- C6: every successful `addVariable` stores, for the chosen value format
(the supplied one, or the type's default), the header template that centers
its argument in exactly `max(len(renderedZeroValue), len(name)) + 4`
characters; rendering the name through it yields a string of exactly that
width, which is at least `max(len(name), len(renderedZeroValue)) + 4`. -/
theorem c6_header_width (h : SolverHistory) (name : String) (t : PyType)
    (p : Bool) (fOpt : Option FmtSpec) (ow : Bool) (h' : SolverHistory)
    (hadd : h.addVariable name t p fOpt ow = (h', .added)) :
    ∃ s, applyFmt (fOpt.getD (defaultFormat t)) (zeroVal t) = some s ∧
      lookupVar h'.vars name = some ⟨name, t, some (fOpt.getD (defaultFormat t)),
        some (.centerS (max s.length name.length + 4)), []⟩ ∧
      ∃ r, applyFmt (FmtSpec.centerS (max s.length name.length + 4))
          (.str name) = some r ∧
        r.length = max s.length name.length + 4 ∧
        max name.length s.length + 4 ≤ r.length := by
  rw [SolverHistory.addVariable] at hadd
  split at hadd
  · simp at hadd
  · dsimp only at hadd
    split at hadd
    · simp at hadd
    · rename_i ts hts
      rw [Prod.mk.injEq] at hadd
      obtain ⟨hh, -⟩ := hadd
      subst hh
      refine ⟨ts, hts, ?_, centerIn (max ts.length name.length + 4) name, rfl, ?_, ?_⟩
      · have := lookupVar_setVar_self h.vars
          ⟨name, t, some (fOpt.getD (defaultFormat t)),
            some (.centerS (max ts.length name.length + 4)), []⟩
        exact this
      · rw [centerIn_length]
        omega
      · rw [centerIn_length]
        omega

/-- Witness for C6: registering an int column `x` with the default format
derives a header template of width `max 5 1 + 4 = 9`, and the rendered header
is 9 characters wide. -/
theorem c6_header_width_witness :
    ∃ s, applyFmt ((Option.none : Option FmtSpec).getD (defaultFormat .int))
        (zeroVal .int) = some s ∧
      lookupVar Hx.vars "x" = some ⟨"x", .int,
        some ((Option.none : Option FmtSpec).getD (defaultFormat .int)),
        some (.centerS (max s.length "x".length + 4)), []⟩ ∧
      ∃ r, applyFmt (FmtSpec.centerS (max s.length "x".length + 4))
          (.str "x") = some r ∧
        r.length = max s.length "x".length + 4 ∧
        max "x".length s.length + 4 ≤ r.length :=
  c6_header_width (SolverHistory.init false false) "x" .int false
    Option.none false Hx rfl

/-! ## Lemmas about `augmentData`, `consume` and the write loop -/

lemma augmentIter_fst (h : SolverHistory) (d : List (String × PyVal)) :
    (h.augmentIter d).1 = h := by
  rw [SolverHistory.augmentIter]; split <;> rfl

lemma augmentData_fst (h : SolverHistory) (now : Rat) (d : List (String × PyVal)) :
    (h.augmentData now d).1 =
      if h.includeTime = true ∧ h.startTime < 0 then h.startTiming now else h := by
  rw [SolverHistory.augmentData]
  by_cases hT : h.includeTime = true
  · rw [if_pos hT]
    by_cases hS : h.startTime < 0
    · rw [if_pos hS, augmentIter_fst, if_pos ⟨hT, hS⟩]
    · rw [if_neg hS, augmentIter_fst, if_neg fun hc => hS hc.2]
  · rw [if_neg hT, augmentIter_fst, if_neg fun hc => hT hc.1]

lemma augmentData_vars (h : SolverHistory) (now : Rat) (d : List (String × PyVal)) :
    (h.augmentData now d).1.vars = h.vars := by
  rw [augmentData_fst]; split <;> rfl

lemma augmentData_iter (h : SolverHistory) (now : Rat) (d : List (String × PyVal)) :
    (h.augmentData now d).1.iter = h.iter := by
  rw [augmentData_fst]; split <;> rfl

lemma augmentIter_keys_nodup (h : SolverHistory) (d : List (String × PyVal))
    (hn : (d.map Prod.fst).Nodup) : ((h.augmentIter d).2.map Prod.fst).Nodup := by
  rw [SolverHistory.augmentIter]; split
  · exact setAssoc_keys_nodup _ _ hn
  · exact hn

lemma augmentData_keys_nodup (h : SolverHistory) (now : Rat)
    (d : List (String × PyVal)) (hn : (d.map Prod.fst).Nodup) :
    ((h.augmentData now d).2.map Prod.fst).Nodup := by
  rw [SolverHistory.augmentData]
  split
  · split <;> exact augmentIter_keys_nodup _ _ (setAssoc_keys_nodup _ _ hn)
  · exact augmentIter_keys_nodup _ _ hn

lemma augmentIter_mem_keys (h : SolverHistory) (d : List (String × PyVal))
    {k : String} (hk : k ∈ d.map Prod.fst) : k ∈ (h.augmentIter d).2.map Prod.fst := by
  rw [SolverHistory.augmentIter]; split
  · exact setAssoc_mem_keys _ _ hk
  · exact hk

lemma augmentData_mem_keys (h : SolverHistory) (now : Rat)
    (d : List (String × PyVal)) {k : String} (hk : k ∈ d.map Prod.fst) :
    k ∈ (h.augmentData now d).2.map Prod.fst := by
  rw [SolverHistory.augmentData]
  split
  · split <;> exact augmentIter_mem_keys _ _ (setAssoc_mem_keys _ _ hk)
  · exact augmentIter_mem_keys _ _ hk

lemma augmentIter_lookup_ne (h : SolverHistory) (d : List (String × PyVal))
    {k : String} (hk : k ≠ "Iter") :
    lookupAssoc (h.augmentIter d).2 k = lookupAssoc d k := by
  rw [SolverHistory.augmentIter]; split
  · exact lookupAssoc_setAssoc_ne hk d _
  · rfl

lemma augmentIter_lookup_iter (h : SolverHistory) (d : List (String × PyVal))
    (hI : h.includeIter = true) :
    lookupAssoc (h.augmentIter d).2 "Iter" = some (.int (h.iter : Int)) := by
  rw [SolverHistory.augmentIter, if_pos hI]
  exact lookupAssoc_setAssoc_self d _ _

lemma augmentData_lookup_time (h : SolverHistory) (now : Rat)
    (d : List (String × PyVal)) (hT : h.includeTime = true) :
    lookupAssoc (h.augmentData now d).2 "Time" =
      some (.float (if h.startTime < 0 then 0 else now - h.startTime)) := by
  rw [SolverHistory.augmentData, if_pos hT]
  by_cases hS : h.startTime < 0
  · rw [if_pos hS, if_pos hS, augmentIter_lookup_ne _ _ (by decide)]
    exact lookupAssoc_setAssoc_self d _ _
  · rw [if_neg hS, if_neg hS, augmentIter_lookup_ne _ _ (by decide)]
    exact lookupAssoc_setAssoc_self d _ _

lemma augmentData_lookup_iter (h : SolverHistory) (now : Rat)
    (d : List (String × PyVal)) (hI : h.includeIter = true) :
    lookupAssoc (h.augmentData now d).2 "Iter" = some (.int (h.iter : Int)) := by
  rw [SolverHistory.augmentData]
  split
  · split
    · exact augmentIter_lookup_iter _ _ hI
    · exact augmentIter_lookup_iter _ _ hI
  · exact augmentIter_lookup_iter _ _ hI

lemma hv_write_ok_fields {v : HistoryVariable} {val : PyVal} {v' : HistoryVariable}
    (hw : v.write val = .ok v') :
    v'.name = v.name ∧ v'.type = v.type ∧ v'.valueFormat = v.valueFormat ∧
    v'.headerFormat = v.headerFormat ∧ ∃ x, v'.data = v.data ++ [x] := by
  cases val with
  | none =>
    simp only [HistoryVariable.write, Except.ok.injEq] at hw
    subst hw
    exact ⟨rfl, rfl, rfl, rfl, PyVal.none, rfl⟩
  | int n =>
    simp only [HistoryVariable.write] at hw
    split at hw
    · simp only [Except.ok.injEq] at hw
      subst hw
      exact ⟨rfl, rfl, rfl, rfl, _, rfl⟩
    · exact absurd hw (by simp)
  | float q =>
    simp only [HistoryVariable.write] at hw
    split at hw
    · simp only [Except.ok.injEq] at hw
      subst hw
      exact ⟨rfl, rfl, rfl, rfl, _, rfl⟩
    · exact absurd hw (by simp)
  | str s =>
    simp only [HistoryVariable.write] at hw
    split at hw
    · simp only [Except.ok.injEq] at hw
      subst hw
      exact ⟨rfl, rfl, rfl, rfl, _, rfl⟩
    · exact absurd hw (by simp)

lemma consume_ok_fields {v : HistoryVariable} {p : Option PyVal} {v' : HistoryVariable}
    (hc : SolverHistory.consume v p = .ok v') :
    v'.name = v.name ∧ v'.type = v.type ∧ v'.valueFormat = v.valueFormat ∧
    v'.headerFormat = v.headerFormat ∧ ∃ x, v'.data = v.data ++ [x] := by
  cases p with
  | none =>
    have hc' : v.write PyVal.none = Except.ok v' := hc
    exact hv_write_ok_fields hc'
  | some val =>
    have hc' : v.write val = Except.ok v' := hc
    exact hv_write_ok_fields hc'

lemma hv_write_conv {v : HistoryVariable} {val : PyVal} {c : PyVal}
    (hne : val ≠ PyVal.none) (hc : pyConvert v.type val = some c) :
    v.write val = .ok { v with data := v.data ++ [c] } := by
  cases val
  · exact absurd rfl hne
  all_goals simp [HistoryVariable.write, hc]

lemma consume_ok_of_canConsume {v : HistoryVariable} {p : Option PyVal}
    (hcc : SolverHistory.canConsume v p = true) :
    ∃ v', SolverHistory.consume v p = .ok v' := by
  cases p with
  | none => exact ⟨_, rfl⟩
  | some val =>
    cases val with
    | none => exact ⟨_, rfl⟩
    | int n =>
      simp only [SolverHistory.canConsume, Option.isSome_iff_exists] at hcc
      rcases hcc with ⟨c, hc⟩
      exact ⟨_, hv_write_conv (by simp) hc⟩
    | float q =>
      simp only [SolverHistory.canConsume, Option.isSome_iff_exists] at hcc
      rcases hcc with ⟨c, hc⟩
      exact ⟨_, hv_write_conv (by simp) hc⟩
    | str s =>
      simp only [SolverHistory.canConsume, Option.isSome_iff_exists] at hcc
      rcases hcc with ⟨c, hc⟩
      exact ⟨_, hv_write_conv (by simp) hc⟩

lemma consume_float {v : HistoryVariable} (t : Rat) (ht : v.type = .float) :
    SolverHistory.consume v (some (.float t)) =
      .ok { v with data := v.data ++ [.float t] } := by
  simp [SolverHistory.consume, HistoryVariable.write, ht, pyConvert]

lemma consume_int {v : HistoryVariable} (n : Int) (ht : v.type = .int) :
    SolverHistory.consume v (some (.int n)) =
      .ok { v with data := v.data ++ [.int n] } := by
  simp [SolverHistory.consume, HistoryVariable.write, ht, pyConvert]

lemma writeLoop_names : ∀ (vs : List HistoryVariable) (d : List (String × PyVal)),
    ((SolverHistory.writeLoop vs d).1.map fun v => v.name) = vs.map fun v => v.name
  | [], _ => rfl
  | v :: rest, d => by
    rw [SolverHistory.writeLoop]
    cases hc : SolverHistory.consume v (popAssoc d v.name).1 with
    | ok v' =>
      dsimp only
      rw [List.map_cons, List.map_cons, (consume_ok_fields hc).1,
        writeLoop_names rest]
    | error e => rfl

lemma writeLoop_grow : ∀ (vs : List HistoryVariable) (d : List (String × PyVal)),
    (SolverHistory.writeLoop vs d).2.2 = Option.none →
    List.Forall₂ (fun v v' => v'.name = v.name ∧ v'.data.length = v.data.length + 1)
      vs (SolverHistory.writeLoop vs d).1
  | [], _, _ => List.Forall₂.nil
  | v :: rest, d, he => by
    rw [SolverHistory.writeLoop] at he ⊢
    cases hc : SolverHistory.consume v (popAssoc d v.name).1 with
    | ok v' =>
      rw [hc] at he
      dsimp only at he ⊢
      refine List.Forall₂.cons ⟨(consume_ok_fields hc).1, ?_⟩
        (writeLoop_grow rest _ he)
      rcases (consume_ok_fields hc).2.2.2.2 with ⟨x, hx⟩
      rw [hx]; simp
    | error e =>
      rw [hc] at he
      exact absurd he (by simp)

lemma writeLoop_clean : ∀ (vs : List HistoryVariable) (d : List (String × PyVal)),
    (d.map Prod.fst).Nodup →
    (∀ v ∈ vs, SolverHistory.canConsume v (lookupAssoc d v.name) = true) →
    (SolverHistory.writeLoop vs d).2.2 = Option.none ∧
    (SolverHistory.writeLoop vs d).2.1 =
      d.filter fun p => !(decide (p.1 ∈ vs.map fun v => v.name))
  | [], d, _, _ => ⟨rfl, by simp [SolverHistory.writeLoop]⟩
  | v :: rest, d, hn, hcc => by
    have hpop : (popAssoc d v.name).1 = lookupAssoc d v.name := popAssoc_fst d v.name
    obtain ⟨v', hv'⟩ := consume_ok_of_canConsume
      (hcc v (List.mem_cons_self v rest))
    rw [← hpop] at hv'
    have hd2 : (popAssoc d v.name).2 = d.filter fun p => !(decide (p.1 = v.name)) :=
      popAssoc_eq_filter v.name hn
    have hn2 : (((popAssoc d v.name).2).map Prod.fst).Nodup := by
      rw [hd2]
      exact (filter_keys_sublist d _).nodup hn
    have hcc2 : ∀ u ∈ rest,
        SolverHistory.canConsume u (lookupAssoc (popAssoc d v.name).2 u.name) = true := by
      intro u hu
      by_cases huv : u.name = v.name
      · rw [hd2, huv, lookupAssoc_filter_self]
        rfl
      · rw [hd2, lookupAssoc_filter_ne huv d]
        exact hcc u (List.mem_cons_of_mem v hu)
    obtain ⟨ih1, ih2⟩ := writeLoop_clean rest (popAssoc d v.name).2 hn2 hcc2
    rw [SolverHistory.writeLoop, hv']
    dsimp only
    refine ⟨ih1, ?_⟩
    rw [ih2, hd2, List.filter_filter]
    apply List.filter_congr
    intro p _
    simp only [List.map_cons, List.mem_cons]
    rw [Bool.decide_or, Bool.not_or, Bool.and_comm]

lemma writeLoop_lookup : ∀ (vs : List HistoryVariable) (d : List (String × PyVal))
    (k : String) (vT : HistoryVariable),
    lookupVar vs k = some vT →
    (SolverHistory.writeLoop vs d).2.2 = Option.none →
    ∃ v', SolverHistory.consume vT (lookupAssoc d k) = .ok v' ∧
      lookupVar (SolverHistory.writeLoop vs d).1 k = some v'
  | [], _, _, _, hl, _ => by simp [lookupVar] at hl
  | v :: rest, d, k, vT, hl, he => by
    by_cases hvk : v.name = k
    · rw [lookupVar, if_pos hvk] at hl
      injection hl with hl
      subst hl
      rw [SolverHistory.writeLoop] at he ⊢
      cases hc : SolverHistory.consume v (popAssoc d v.name).1 with
      | error e =>
        rw [hc] at he
        exact absurd he (by simp)
      | ok v' =>
        rw [hc] at he
        refine ⟨v', ?_, ?_⟩
        · rw [← hvk, ← popAssoc_fst]
          exact hc
        · dsimp only
          rw [lookupVar, if_pos ((consume_ok_fields hc).1.trans hvk)]
    · rw [lookupVar, if_neg hvk] at hl
      rw [SolverHistory.writeLoop] at he ⊢
      cases hc : SolverHistory.consume v (popAssoc d v.name).1 with
      | error e =>
        rw [hc] at he
        exact absurd he (by simp)
      | ok v' =>
        rw [hc] at he
        dsimp only at he ⊢
        obtain ⟨v'', hcons, hlook⟩ :=
          writeLoop_lookup rest (popAssoc d v.name).2 k vT hl he
        refine ⟨v'', ?_, ?_⟩
        · rw [popAssoc_lookup_ne (fun hk => hvk hk.symm) d] at hcons
          exact hcons
        · rw [lookupVar, if_neg ((consume_ok_fields hc).1 ▸ hvk)]
          exact hlook

lemma finishWrite_some (h2 : SolverHistory) (d2 : List (String × PyVal)) (e : PyErr) :
    SolverHistory.finishWrite h2 d2 (some e) = (h2, d2, .error e) := rfl

lemma finishWrite_none_empty (h2 : SolverHistory) :
    SolverHistory.finishWrite h2 [] Option.none =
      ({ h2 with iter := h2.iter + 1 }, [], .ok ()) := rfl

lemma finishWrite_none_nonempty (h2 : SolverHistory) (d2 : List (String × PyVal))
    (hne : d2 ≠ []) :
    SolverHistory.finishWrite h2 d2 Option.none =
      (h2, d2, .error (.unknownVariable (d2.map Prod.fst) h2.variableNames)) := by
  rw [SolverHistory.finishWrite, if_neg]
  rw [List.isEmpty_iff]
  exact hne

lemma write_eq_finish (h : SolverHistory) (now : Rat) (data : List (String × PyVal)) :
    h.write now data =
      SolverHistory.finishWrite
        { (h.augmentData now data).1 with
            vars := (SolverHistory.writeLoop h.vars (h.augmentData now data).2).1 }
        (SolverHistory.writeLoop h.vars (h.augmentData now data).2).2.1
        (SolverHistory.writeLoop h.vars (h.augmentData now data).2).2.2 := by
  rw [SolverHistory.write, augmentData_vars]

lemma write_ok_parts (h : SolverHistory) (now : Rat) (data : List (String × PyVal))
    (hok : (h.write now data).2.2 = .ok ()) :
    (SolverHistory.writeLoop h.vars (h.augmentData now data).2).2.2 = Option.none ∧
    (SolverHistory.writeLoop h.vars (h.augmentData now data).2).2.1 = [] ∧
    (h.write now data).1.vars =
      (SolverHistory.writeLoop h.vars (h.augmentData now data).2).1 ∧
    (h.write now data).1.iter = h.iter + 1 ∧
    (h.write now data).2.1 = [] := by
  rw [write_eq_finish] at hok ⊢
  cases he : (SolverHistory.writeLoop h.vars (h.augmentData now data).2).2.2 with
  | some e =>
    rw [he, finishWrite_some] at hok
    exact absurd hok (by simp)
  | none =>
    rw [he] at hok
    by_cases hemp : (SolverHistory.writeLoop h.vars (h.augmentData now data).2).2.1 = []
    · rw [hemp]
      rw [finishWrite_none_empty]
      refine ⟨rfl, rfl, rfl, ?_, rfl⟩
      dsimp only
      rw [augmentData_iter]
    · rw [finishWrite_none_nonempty _ _ hemp] at hok
      exact absurd hok (by simp)

lemma forall2_exists_left {α β : Type} {R : α → β → Prop}
    {l1 : List α} {l2 : List β} (hf : List.Forall₂ R l1 l2) :
    ∀ b ∈ l2, ∃ a ∈ l1, R a b := by
  induction hf with
  | nil => intro b hb; simp at hb
  | cons hr _ ih =>
    intro b hb
    rcases List.mem_cons.mp hb with rfl | hb
    · exact ⟨_, List.mem_cons_self _ _, hr⟩
    · rcases ih b hb with ⟨a, ha, hab⟩
      exact ⟨a, List.mem_cons_of_mem _ ha, hab⟩

lemma writeMany_lockstep : ∀ (rows : List (Rat × List (String × PyVal)))
    (h h' : SolverHistory),
    (∀ v ∈ h.vars, v.data.length = h.iter) →
    h.writeMany rows = some h' →
    (∀ v ∈ h'.vars, v.data.length = h'.iter) ∧ h'.iter = h.iter + rows.length
  | [], h, h', hinv, hw => by
    rw [SolverHistory.writeMany] at hw
    injection hw with hw
    subst hw
    exact ⟨hinv, by simp⟩
  | r :: rest, h, h', hinv, hw => by
    rw [SolverHistory.writeMany] at hw
    cases he : (h.write r.1 r.2).2.2 with
    | error e =>
      rw [he] at hw
      exact absurd hw (by simp)
    | ok u =>
      cases u
      rw [he] at hw
      dsimp only at hw
      obtain ⟨hl0, -, hvars, hiter, -⟩ := write_ok_parts h r.1 r.2 he
      have hinv' : ∀ v ∈ (h.write r.1 r.2).1.vars,
          v.data.length = (h.write r.1 r.2).1.iter := by
        intro v' hv'
        rw [hvars] at hv'
        have hf := writeLoop_grow h.vars (h.augmentData r.1 r.2).2 hl0
        rcases forall2_exists_left hf v' hv' with ⟨v, hv, -, hlen⟩
        rw [hiter, hlen, hinv v hv]
      obtain ⟨ih1, ih2⟩ := writeMany_lockstep rest _ h' hinv' hw
      refine ⟨ih1, ?_⟩
      rw [ih2, hiter, List.length_cons]
      omega

/-! ## C1: the lockstep invariant -/

/-- C1: starting from a history whose columns were all registered before any
row was written (all columns empty, iteration counter zero), after `N`
successful `write` calls — with no `writeFullVariableHistory` calls and no
failed writes in between — every registered column holds exactly `N` elements
and `getIter()` returns `N`. -/
theorem c1_lockstep (h : SolverHistory) (rows : List (Rat × List (String × PyVal)))
    (h' : SolverHistory)
    (hlen : ∀ v ∈ h.vars, v.data.length = 0) (hiter : h.iter = 0)
    (hw : h.writeMany rows = some h') :
    (∀ v ∈ h'.vars, v.data.length = rows.length) ∧ h'.getIter = rows.length := by
  have hinv : ∀ v ∈ h.vars, v.data.length = h.iter := by
    intro v hv; rw [hiter]; exact hlen v hv
  obtain ⟨h1, h2⟩ := writeMany_lockstep rows h h' hinv hw
  rw [hiter, Nat.zero_add] at h2
  exact ⟨fun v hv => (h1 v hv).trans h2, h2⟩

/-- Witness for C1: two successful writes on a default history (columns
`Iter`, `Time`, `x`) leave the iteration counter at 2 — the lockstep theorem
applies with every hypothesis discharged on this concrete run. -/
theorem c1_lockstep_witness : Wc1final.getIter = 2 :=
  (c1_lockstep Wc1 [((0 : Rat), [("x", PyVal.float 2)]), ((5 : Rat), [])]
    Wc1final (by decide) (by decide) rfl).2

lemma augmentData_time_overwrite (h : SolverHistory) (now : Rat)
    (data : List (String × PyVal)) (junk : PyVal) (hT : h.includeTime = true) :
    h.augmentData now (setAssoc data "Time" junk) = h.augmentData now data := by
  rw [SolverHistory.augmentData, SolverHistory.augmentData, if_pos hT, if_pos hT]
  by_cases hS : h.startTime < 0
  · rw [if_pos hS, if_pos hS, setAssoc_setAssoc]
  · rw [if_neg hS, if_neg hS, setAssoc_setAssoc]

/-! ## C10: `write` mutates the caller's dictionary and owns `Time`/`Iter` -/

/-- C10: `write` pops every consumed key out of the caller's mapping — after a
successful call the mapping is empty; when time (resp. iteration) tracking is
enabled, the injected `"Time"` (resp. `"Iter"`) entry of the consumed mapping
is the internally computed elapsed time (resp. the iteration counter), so any
caller-supplied value under `"Time"` is discarded (the call result is
identical to the call without it), and the value stored in the `Time`/`Iter`
column on a successful call is the internal one. -/
theorem c10_write_mutation (h : SolverHistory) (now : Rat)
    (data : List (String × PyVal)) :
    ((h.write now data).2.2 = .ok () → (h.write now data).2.1 = []) ∧
    (h.includeTime = true →
      lookupAssoc (h.augmentData now data).2 "Time" =
        some (.float (if h.startTime < 0 then 0 else now - h.startTime))) ∧
    (h.includeIter = true →
      lookupAssoc (h.augmentData now data).2 "Iter" = some (.int (h.iter : Int))) ∧
    (h.includeTime = true → ∀ junk,
      h.write now (setAssoc data "Time" junk) = h.write now data) ∧
    ((h.write now data).2.2 = .ok () → h.includeTime = true →
      ∀ vT, lookupVar h.vars "Time" = some vT → vT.type = .float →
        ∃ v', lookupVar (h.write now data).1.vars "Time" = some v' ∧
          v'.data = vT.data ++
            [PyVal.float (if h.startTime < 0 then 0 else now - h.startTime)]) ∧
    ((h.write now data).2.2 = .ok () → h.includeIter = true →
      ∀ vI, lookupVar h.vars "Iter" = some vI → vI.type = .int →
        ∃ v', lookupVar (h.write now data).1.vars "Iter" = some v' ∧
          v'.data = vI.data ++ [PyVal.int (h.iter : Int)]) := by
  refine ⟨fun hok => (write_ok_parts h now data hok).2.2.2.2,
    fun hT => augmentData_lookup_time h now data hT,
    fun hI => augmentData_lookup_iter h now data hI,
    fun hT junk => ?_, fun hok hT vT hvT htype => ?_, fun hok hI vI hvI htype => ?_⟩
  · rw [write_eq_finish, write_eq_finish, augmentData_time_overwrite h now data junk hT]
  · obtain ⟨hl0, -, hvars, -, -⟩ := write_ok_parts h now data hok
    obtain ⟨v', hcons, hlook⟩ :=
      writeLoop_lookup h.vars (h.augmentData now data).2 "Time" vT hvT hl0
    rw [augmentData_lookup_time h now data hT] at hcons
    rw [consume_float _ htype] at hcons
    injection hcons with hcons
    refine ⟨v', ?_, ?_⟩
    · rw [hvars]; exact hlook
    · rw [← hcons]
  · obtain ⟨hl0, -, hvars, -, -⟩ := write_ok_parts h now data hok
    obtain ⟨v', hcons, hlook⟩ :=
      writeLoop_lookup h.vars (h.augmentData now data).2 "Iter" vI hvI hl0
    rw [augmentData_lookup_iter h now data hI] at hcons
    rw [consume_int _ htype] at hcons
    injection hcons with hcons
    refine ⟨v', ?_, ?_⟩
    · rw [hvars]; exact hlook
    · rw [← hcons]

/-- Witness for C10: on a default history with an int column `x`, writing
`{"x": 5}` at clock 2 succeeds, leaves the mapping empty, stores the internal
elapsed time `0.0` (first call) in the `Time` column, stores the internal
iteration number `0` in the `Iter` column, and supplying a bogus caller value
under `"Time"` changes nothing. -/
theorem c10_write_mutation_witness :
    (Wc10.write 2 [("x", PyVal.int 5)]).2.1 = [] ∧
    Wc10.write 2 (setAssoc [("x", PyVal.int 5)] "Time" (PyVal.str "bogus")) =
      Wc10.write 2 [("x", PyVal.int 5)] ∧
    (∃ v', lookupVar (Wc10.write 2 [("x", PyVal.int 5)]).1.vars "Time" = some v' ∧
      v'.data = [] ++ [PyVal.float (if Wc10.startTime < 0 then 0 else 2 - Wc10.startTime)]) ∧
    (∃ v', lookupVar (Wc10.write 2 [("x", PyVal.int 5)]).1.vars "Iter" = some v' ∧
      v'.data = [] ++ [PyVal.int (Wc10.iter : Int)]) :=
  ⟨(c10_write_mutation Wc10 2 [("x", PyVal.int 5)]).1 rfl,
   (c10_write_mutation Wc10 2 [("x", PyVal.int 5)]).2.2.2.1 rfl (PyVal.str "bogus"),
   (c10_write_mutation Wc10 2 [("x", PyVal.int 5)]).2.2.2.2.1 rfl rfl
     ⟨"Time", .float, some (.sci false 9 3), some (.centerS 13), []⟩ (by decide) rfl,
   (c10_write_mutation Wc10 2 [("x", PyVal.int 5)]).2.2.2.2.2 rfl rfl
     ⟨"Iter", .int, some (.intD true 5), some (.centerS 9), []⟩ (by decide) rfl⟩

/-! ## C2: partial commit on unknown variables -/

/-- Counterexample for C2 as stated: a `write` whose row data contains the
unregistered key `"y"` but also a value for `"x"` that fails coercion raises
`TypeConversion` — not `UnknownVariable` — and column `x` has not grown
(data still empty) and the iteration counter is unchanged. -/
theorem c2_counterexample :
    ("y" ∈ [("x", PyVal.str "a"), ("y", PyVal.int 1)].map Prod.fst ∧
      "y" ∉ Hx.variableNames) ∧
    (Hx.write 0 [("x", PyVal.str "a"), ("y", PyVal.int 1)]).2.2 =
      .error (.typeConversion (.str "a") "x" .int) ∧
    (Hx.write 0 [("x", PyVal.str "a"), ("y", PyVal.int 1)]).1.getData = [("x", [])] ∧
    (Hx.write 0 [("x", PyVal.str "a"), ("y", PyVal.int 1)]).1.iter = 0 :=
  ⟨by decide, rfl, by decide, by decide⟩

/-- C2 (amended): if the (`Time`/`Iter`-augmented) row data has distinct keys,
every registered column can consume its matching value without a coercion
failure, and some key is not a registered column name, then `write` raises
`UnknownVariable` listing exactly the leftover (unregistered) keys and the
valid names, every registered column has grown by exactly one element
(partial commit), and the iteration counter is not incremented. -/
theorem c2_partial_commit (h : SolverHistory) (now : Rat)
    (data : List (String × PyVal))
    (hkn : ((h.augmentData now data).2.map Prod.fst).Nodup)
    (hcc : ∀ v ∈ h.vars,
      SolverHistory.canConsume v (lookupAssoc (h.augmentData now data).2 v.name) = true)
    (hbad : ∃ k ∈ (h.augmentData now data).2.map Prod.fst, k ∉ h.variableNames) :
    (h.write now data).2.2 =
      .error (.unknownVariable
        (((h.augmentData now data).2.filter fun p =>
            !(decide (p.1 ∈ h.variableNames))).map Prod.fst)
        h.variableNames) ∧
    List.Forall₂ (fun v v' => v'.name = v.name ∧ v'.data.length = v.data.length + 1)
      h.vars (h.write now data).1.vars ∧
    (h.write now data).1.iter = h.iter := by
  obtain ⟨he, hfil⟩ := writeLoop_clean h.vars (h.augmentData now data).2 hkn hcc
  have hne : (SolverHistory.writeLoop h.vars (h.augmentData now data).2).2.1 ≠ [] := by
    rcases hbad with ⟨k, hk, hnk⟩
    rcases List.mem_map.mp hk with ⟨p, hp, hpk⟩
    intro hnil
    rw [hfil] at hnil
    have hnk' : k ∉ h.vars.map fun v => v.name := hnk
    have hpmem : p ∈ (h.augmentData now data).2.filter fun p =>
        !(decide (p.1 ∈ h.vars.map fun v => v.name)) := by
      rw [List.mem_filter]
      exact ⟨hp, by simp [hpk, hnk']⟩
    rw [hnil] at hpmem
    simp at hpmem
  have hnames : ({ (h.augmentData now data).1 with
      vars := (SolverHistory.writeLoop h.vars (h.augmentData now data).2).1 }
        : SolverHistory).variableNames = h.variableNames := by
    show ((SolverHistory.writeLoop h.vars (h.augmentData now data).2).1.map
      fun v => v.name) = h.vars.map fun v => v.name
    exact writeLoop_names _ _
  rw [write_eq_finish, he, finishWrite_none_nonempty _ _ hne]
  refine ⟨?_, ?_, ?_⟩
  · dsimp only
    rw [hnames, hfil]
    rfl
  · dsimp only
    exact writeLoop_grow _ _ he
  · dsimp only
    rw [augmentData_iter]

/-- Witness for C2 (amended): `write({"x": 5, "y": 1})` on a history with the
single int column `x` raises `UnknownVariable(["y"], ["x"])`, `x` has grown by
one, and the counter stays 0. -/
theorem c2_partial_commit_witness :
    (Hx.write 0 [("x", PyVal.int 5), ("y", PyVal.int 1)]).2.2 =
      .error (.unknownVariable ["y"] ["x"]) ∧
    List.Forall₂ (fun v v' => v'.name = v.name ∧ v'.data.length = v.data.length + 1)
      Hx.vars (Hx.write 0 [("x", PyVal.int 5), ("y", PyVal.int 1)]).1.vars ∧
    (Hx.write 0 [("x", PyVal.int 5), ("y", PyVal.int 1)]).1.iter = 0 :=
  ⟨(c2_partial_commit Hx 0 [("x", PyVal.int 5), ("y", PyVal.int 1)]
      (by decide) (by decide) (by decide)).1,
   (c2_partial_commit Hx 0 [("x", PyVal.int 5), ("y", PyVal.int 1)]
      (by decide) (by decide) (by decide)).2.1,
   (c2_partial_commit Hx 0 [("x", PyVal.int 5), ("y", PyVal.int 1)]
      (by decide) (by decide) (by decide)).2.2⟩

/-! ## Lemmas for `printData` -/

lemma listMax_mem : ∀ (l : List Int), l ≠ [] → SolverHistory.listMax l ∈ l
  | [], h => absurd rfl h
  | [x], _ => by simp [SolverHistory.listMax]
  | x :: y :: rest, _ => by
    rw [SolverHistory.listMax]
    rcases max_choice x (SolverHistory.listMax (y :: rest)) with hm | hm <;> rw [hm]
    · exact List.mem_cons_self _ _
    · exact List.mem_cons_of_mem _ (listMax_mem (y :: rest) (by simp))

lemma listMin_mem : ∀ (l : List Int), l ≠ [] → SolverHistory.listMin l ∈ l
  | [], h => absurd rfl h
  | [x], _ => by simp [SolverHistory.listMin]
  | x :: y :: rest, _ => by
    rw [SolverHistory.listMin]
    rcases min_choice x (SolverHistory.listMin (y :: rest)) with hm | hm <;> rw [hm]
    · exact List.mem_cons_self _ _
    · exact List.mem_cons_of_mem _ (listMin_mem (y :: rest) (by simp))

lemma le_listMax : ∀ (l : List Int), ∀ a ∈ l, a ≤ SolverHistory.listMax l
  | [], a, ha => by simp at ha
  | [x], a, ha => by
    rw [SolverHistory.listMax]
    rcases List.mem_singleton.mp ha with rfl
    exact le_refl a
  | x :: y :: rest, a, ha => by
    rw [SolverHistory.listMax]
    rcases List.mem_cons.mp ha with rfl | ha
    · exact le_max_left _ _
    · exact le_trans (le_listMax (y :: rest) a ha) (le_max_right _ _)

lemma listMin_le : ∀ (l : List Int), ∀ a ∈ l, SolverHistory.listMin l ≤ a
  | [], a, ha => by simp at ha
  | [x], a, ha => by
    rw [SolverHistory.listMin]
    rcases List.mem_singleton.mp ha with rfl
    exact le_refl a
  | x :: y :: rest, a, ha => by
    rw [SolverHistory.listMin]
    rcases List.mem_cons.mp ha with rfl | ha
    · exact min_le_left _ _
    · exact le_trans (min_le_right _ _) (listMin_le (y :: rest) a ha)

lemma pyGet_isSome (l : List PyVal) (i : Int) (h1 : -(l.length : Int) ≤ i)
    (h2 : i < (l.length : Int)) : ∃ x, HistoryVariable.pyGet l i = some x := by
  rw [HistoryVariable.pyGet]
  by_cases h0 : 0 ≤ i
  · rw [if_pos h0]
    have hlt : i.toNat < l.length := by omega
    exact ⟨l.get ⟨i.toNat, hlt⟩, List.get?_eq_get hlt⟩
  · rw [if_neg h0, if_pos (by omega)]
    have hlt : l.length - i.natAbs < l.length := by omega
    exact ⟨l.get ⟨l.length - i.natAbs, hlt⟩, List.get?_eq_get hlt⟩

lemma pyGet_mem {l : List PyVal} {i : Int} {x : PyVal}
    (hx : HistoryVariable.pyGet l i = some x) : x ∈ l := by
  rw [HistoryVariable.pyGet] at hx
  split at hx
  · exact List.get?_mem hx
  · split at hx
    · exact List.get?_mem hx
    · exact absurd hx (by simp)

lemma applyFmt_total {f : FmtSpec} {t : PyType} {v : PyVal}
    (hf : fmtTotal f t = true) (hv : valOfTypeB t v = true) :
    ∃ s, applyFmt f v = some s := by
  cases f <;> cases t <;> cases v <;> simp_all [fmtTotal, valOfTypeB, applyFmt]

lemma mapM_ok {α β : Type} (f : α → Except PyErr β) :
    ∀ (l : List α), (∀ a ∈ l, ∃ b, f a = .ok b) → ∃ bs, l.mapM f = .ok bs
  | [], _ => ⟨[], rfl⟩
  | a :: l, hall => by
    obtain ⟨b, hb⟩ := hall a (List.mem_cons_self a l)
    obtain ⟨bs, hbs⟩ := mapM_ok f l fun x hx => hall x (List.mem_cons_of_mem a hx)
    exact ⟨b :: bs, by rw [List.mapM_cons, hb, hbs]; rfl⟩

lemma gfhs_eq {v : HistoryVariable} {hf : FmtSpec} {s r : String}
    (hHF : v.headerFormat = some hf) (hr : applyFmt hf (.str s) = some r) :
    v.getFormattedHeaderString (some s) = .ok r := by
  rw [HistoryVariable.getFormattedHeaderString, hHF]
  simp [hr]

lemma gfvs_eq {v : HistoryVariable} {vf : FmtSpec} {x : PyVal} {r : String}
    (hVF : v.valueFormat = some vf) (hr : applyFmt vf x = some r) :
    v.getFormattedValueString x = .ok r := by
  rw [HistoryVariable.getFormattedValueString, hVF]
  simp [hr]

lemma renderCell_ok_none {v : HistoryVariable} {i : Int} {hf : FmtSpec} {s : String}
    (hget : v.getValue i = Except.ok PyVal.none)
    (hHF : v.headerFormat = some hf)
    (hs : applyFmt hf (PyVal.str "-") = some s) :
    SolverHistory.renderCell v i = .ok s := by
  rw [SolverHistory.renderCell, hget]
  show v.getFormattedHeaderString (some "-") = .ok s
  exact gfhs_eq hHF hs

lemma renderCell_ok_val {v : HistoryVariable} {i : Int} {x : PyVal}
    {hf vf : FmtSpec} {s1 s2 : String}
    (hget : v.getValue i = Except.ok x) (hne : x ≠ PyVal.none)
    (hHF : v.headerFormat = some hf) (hVF : v.valueFormat = some vf)
    (hs1 : applyFmt vf x = some s1) (hs2 : applyFmt hf (PyVal.str s1) = some s2) :
    SolverHistory.renderCell v i = .ok s2 := by
  rw [SolverHistory.renderCell, hget]
  cases x with
  | none => exact absurd rfl hne
  | int m =>
    show (v.getFormattedValueString (PyVal.int m) >>= fun s =>
      v.getFormattedHeaderString (some s)) = Except.ok s2
    rw [gfvs_eq hVF hs1]
    show v.getFormattedHeaderString (some s1) = Except.ok s2
    exact gfhs_eq hHF hs2
  | float q =>
    show (v.getFormattedValueString (PyVal.float q) >>= fun s =>
      v.getFormattedHeaderString (some s)) = Except.ok s2
    rw [gfvs_eq hVF hs1]
    show v.getFormattedHeaderString (some s1) = Except.ok s2
    exact gfhs_eq hHF hs2
  | str t =>
    show (v.getFormattedValueString (PyVal.str t) >>= fun s =>
      v.getFormattedHeaderString (some s)) = Except.ok s2
    rw [gfvs_eq hVF hs1]
    show v.getFormattedHeaderString (some s1) = Except.ok s2
    exact gfhs_eq hHF hs2

lemma renderCell_ok {v : HistoryVariable} {n : Nat} (i : Int)
    (hwf : SolverHistory.hvPrintableWF n v = true)
    (h1 : -(n : Int) ≤ i) (h2 : i < (n : Int)) :
    ∃ s, SolverHistory.renderCell v i = .ok s := by
  simp only [SolverHistory.hvPrintableWF, Bool.and_eq_true, decide_eq_true_eq] at hwf
  obtain ⟨⟨⟨hlen, hall⟩, hhf⟩, hvf⟩ := hwf
  obtain ⟨x, hx⟩ := pyGet_isSome v.data i (by omega) (by omega)
  have hget : v.getValue i = .ok x := by rw [HistoryVariable.getValue, hx]
  have hmem := pyGet_mem hx
  have hallx := List.all_eq_true.mp hall x hmem
  cases hHF : v.headerFormat with
  | none => rw [hHF] at hhf; exact absurd hhf (by simp)
  | some hf =>
    rw [hHF] at hhf
    by_cases hxn : x = PyVal.none
    · subst hxn
      obtain ⟨s, hs⟩ := applyFmt_total (v := PyVal.str "-") hhf rfl
      exact ⟨s, renderCell_ok_none hget hHF hs⟩
    · have hOK : valOfTypeB v.type x = true := by
        cases x with
        | none => exact absurd rfl hxn
        | int m => simpa using hallx
        | float q => simpa using hallx
        | str t => simpa using hallx
      cases hVF : v.valueFormat with
      | none => rw [hVF] at hvf; exact absurd hvf (by simp)
      | some vf =>
        rw [hVF] at hvf
        obtain ⟨s1, hs1⟩ := applyFmt_total hvf hOK
        obtain ⟨s2, hs2⟩ := applyFmt_total (v := PyVal.str s1) hhf rfl
        exact ⟨s2, renderCell_ok_val hget hxn hHF hVF hs1 hs2⟩

lemma renderLine_ok {h : SolverHistory} (i : Int)
    (hwf : SolverHistory.printableWF h = true)
    (h1 : -(h.iter : Int) ≤ i) (h2 : i < (h.iter : Int)) :
    ∃ s, SolverHistory.renderLine h i = .ok s := by
  have hall : ∀ v ∈ SolverHistory.variablesToPrint h,
      ∃ s, SolverHistory.renderCell v i = .ok s := by
    intro v hv
    exact renderCell_ok i (List.all_eq_true.mp hwf v hv) h1 h2
  obtain ⟨cells, hcells⟩ := mapM_ok _ _ hall
  exact ⟨_, by rw [SolverHistory.renderLine, hcells]; rfl⟩

/-! ## C4: `printData` index bounds -/

/-- Counterexample for C4 as stated: a history with iteration count 1 whose
printed column `y` was registered after the first row was written holds no
rows, so `printData(0)` — with `0` in the valid range `[-1, 1)` — fails with
an `IndexError` for `y` instead of succeeding. -/
theorem c4_counterexample :
    Hc4.getIter = 1 ∧
    Hc4.printData (.single 0) = .error (.indexError 0 "y") :=
  ⟨rfl, rfl⟩

/-- C4 (amended): for every nonempty index selection, `printData` fails with
an `OutOfRange` error naming an offending index and the iteration count
whenever some requested index is `≥ N` or `< −N`; and when every printed
column is a well-formed lockstep column (`N` elements of the declared type or
the sentinel, with templates valid for the type — as `addVariable` plus `N`
lockstep `write` calls produce) and every requested index lies in
`[−N, N)`, `printData` succeeds. -/
theorem c4_printData_bounds (h : SolverHistory) (iters : List Int)
    (hne : iters ≠ []) :
    ((∃ i ∈ iters, (h.iter : Int) ≤ i ∨ i < -(h.iter : Int)) →
      h.printData (.several iters) =
        .error (.outOfRange
          (if SolverHistory.listMax iters ≥ (h.iter : Int)
            then SolverHistory.listMax iters else SolverHistory.listMin iters)
          h.iter) ∧
      ((h.iter : Int) ≤ (if SolverHistory.listMax iters ≥ (h.iter : Int)
          then SolverHistory.listMax iters else SolverHistory.listMin iters) ∨
        (if SolverHistory.listMax iters ≥ (h.iter : Int)
          then SolverHistory.listMax iters else SolverHistory.listMin iters) <
          -(h.iter : Int))) ∧
    (SolverHistory.printableWF h = true →
      (∀ i ∈ iters, -(h.iter : Int) ≤ i ∧ i < (h.iter : Int)) →
      ∃ lines, h.printData (.several iters) = .ok lines) := by
  constructor
  · rintro ⟨i, hi, hout⟩
    have hcond : SolverHistory.listMax iters ≥ (h.iter : Int) ∨
        SolverHistory.listMin iters < -(h.iter : Int) := by
      rcases hout with hout | hout
      · exact Or.inl (le_trans hout (le_listMax iters i hi))
      · exact Or.inr (lt_of_le_of_lt (listMin_le iters i hi) hout)
    constructor
    · rw [SolverHistory.printData]
      rw [show SolverHistory.normalizeIters (.several iters) = iters from rfl]
      rw [if_neg (by simpa [List.isEmpty_iff] using hne), if_pos hcond]
    · by_cases hmax : SolverHistory.listMax iters ≥ (h.iter : Int)
      · rw [if_pos hmax]
        exact Or.inl hmax
      · rw [if_neg hmax]
        rcases hcond with hc | hc
        · exact absurd hc hmax
        · exact Or.inr hc
  · intro hwf hall
    have hcond : ¬(SolverHistory.listMax iters ≥ (h.iter : Int) ∨
        SolverHistory.listMin iters < -(h.iter : Int)) := by
      rintro (hc | hc)
      · exact absurd hc (not_le.mpr (hall _ (listMax_mem iters hne)).2)
      · exact absurd hc (not_lt.mpr (hall _ (listMin_mem iters hne)).1)
    have hlines : ∀ i ∈ iters, ∃ s, SolverHistory.renderLine h i = .ok s :=
      fun i hi => renderLine_ok i hwf (hall i hi).1 (hall i hi).2
    obtain ⟨lines, hl⟩ := mapM_ok _ iters hlines
    refine ⟨lines, ?_⟩
    rw [SolverHistory.printData]
    rw [show SolverHistory.normalizeIters (.several iters) = iters from rfl]
    rw [if_neg (by simpa [List.isEmpty_iff] using hne), if_neg hcond]
    exact hl

/-- Witness for C4 (amended): on the concrete well-formed 3-row history,
`printData(0)` and `printData(-1)` succeed while `printData(3)` and
`printData(-4)` fail with `OutOfRange` naming the offending index and the
count 3. -/
theorem c4_printData_bounds_witness :
    (H3.printData (.several [0])).isOk = true ∧
    (H3.printData (.several [-1])).isOk = true ∧
    H3.printData (.several [3]) = .error (.outOfRange 3 3) ∧
    H3.printData (.several [-4]) = .error (.outOfRange (-4) 3) := by
  refine ⟨?_, ?_, ?_, ?_⟩
  · obtain ⟨lines, hl⟩ :=
      (c4_printData_bounds H3 [0] (by decide)).2 (by decide) (by decide)
    rw [hl]; rfl
  · obtain ⟨lines, hl⟩ :=
      (c4_printData_bounds H3 [-1] (by decide)).2 (by decide) (by decide)
    rw [hl]; rfl
  · exact ((c4_printData_bounds H3 [3] (by decide)).1
      ⟨3, by decide, by decide⟩).1
  · exact ((c4_printData_bounds H3 [-4] (by decide)).1
      ⟨-4, by decide, by decide⟩).1

/-! ## C8: `save` path normalization and payload shape -/

lemma rfindChar_none : ∀ {l : List Char} {c : Char},
    rfindChar l c = Option.none → c ∉ l
  | [], c, _ => by simp
  | a :: rest, c, h => by
    rw [rfindChar] at h
    cases hr : rfindChar rest c with
    | some i => exact absurd (by simpa only [hr] using h) (by simp)
    | none =>
      simp only [hr] at h
      split at h
      · exact absurd h (by simp)
      · rename_i hac
        intro hmem
        rcases List.mem_cons.mp hmem with rfl | hmem
        · exact hac rfl
        · exact rfindChar_none hr hmem

lemma rfindChar_drop : ∀ {l : List Char} {c : Char} {i : Nat},
    rfindChar l c = some i → ∃ t, l.drop i = c :: t ∧ c ∉ t
  | [], c, i, h => by simp [rfindChar] at h
  | a :: rest, c, i, h => by
    rw [rfindChar] at h
    cases hr : rfindChar rest c with
    | some j =>
      simp only [hr, Option.some.injEq] at h
      subst h
      obtain ⟨t, ht, hnot⟩ := rfindChar_drop hr
      exact ⟨t, by simpa using ht, hnot⟩
    | none =>
      simp only [hr] at h
      split at h
      · rename_i hac
        injection h with h
        subst h
        subst hac
        exact ⟨rest, rfl, rfindChar_none hr⟩
      · exact absurd h (by simp)

/-- C8: `save(path)` writes to the path whose extension (as `os.path.splitext`
computes it) is replaced by the fixed `.pkl` suffix; the split is a genuine
stem/extension split of the input (stem ++ ext = path, and the ext is empty or
a final `.`-segment containing no further dot and no path separator); and the
serialized payload has exactly the two top-level keys `data` — the full
per-column data snapshot, sentinels included — and `metadata`. -/
theorem c8_save_shape (h : SolverHistory) (f : String) :
    (h.save f).1 = (pySplitext f).1 ++ ".pkl" ∧
    (pySplitext f).1 ++ (pySplitext f).2 = f ∧
    ((pySplitext f).2.data = [] ∨
      ((pySplitext f).2.data.head? = some '.' ∧
       ((pySplitext f).2.data.tail.all fun c => c != '.') = true ∧
       ((pySplitext f).2.data.all fun c => c != '/') = true)) ∧
    (h.save f).2.map Prod.fst = ["data", "metadata"] ∧
    lookupAssoc (h.save f).2 "data" = some (.dataEntry h.getData) ∧
    lookupAssoc (h.save f).2 "metadata" = some (.metaEntry h.getMetadata) := by
  refine ⟨rfl, ?_, ?_, rfl, rfl, rfl⟩
  · rw [pySplitext]
    cases hd : rfindChar f.data '.' with
    | none => exact String.append_empty f
    | some di =>
      dsimp only
      split
      · show String.mk (f.data.take di) ++ String.mk (f.data.drop di) = f
        show String.mk (f.data.take di ++ f.data.drop di) = f
        rw [List.take_append_drop]
      · exact String.append_empty f
  · rw [pySplitext]
    cases hd : rfindChar f.data '.' with
    | none => exact Or.inl rfl
    | some di =>
      dsimp only
      split
      · rename_i hcond
        obtain ⟨t, hdrop, hnot⟩ := rfindChar_drop hd
        refine Or.inr ⟨?_, ?_, ?_⟩
        · show (f.data.drop di).head? = some '.'
          rw [hdrop]
          rfl
        · show ((f.data.drop di).tail.all fun c => c != '.') = true
          rw [hdrop]
          exact List.all_eq_true.mpr fun x hx =>
            bne_iff_ne.mpr fun hxe => hnot (hxe ▸ hx)
        · show ((f.data.drop di).all fun c => c != '/') = true
          apply List.all_eq_true.mpr
          intro x hx
          refine bne_iff_ne.mpr ?_
          cases hs : rfindChar f.data '/' with
          | none =>
            have hxf : x ∈ f.data := List.drop_subset di f.data hx
            exact fun hxe => rfindChar_none hs (hxe ▸ hxf)
          | some si =>
            simp only [hs] at hcond
            have hsd : si + 1 ≤ di := hcond.1
            obtain ⟨t', hdrop', hnot'⟩ := rfindChar_drop hs
            have hsub : f.data.drop di ⊆ f.data.drop (si + 1) := by
              intro y hy
              have hdd : f.data.drop di = (f.data.drop (si + 1)).drop (di - (si + 1)) := by
                rw [List.drop_drop]
                congr 1
                omega
              rw [hdd] at hy
              exact List.drop_subset _ _ hy
            have htail : f.data.drop (si + 1) = t' := by
              rw [← List.tail_drop, hdrop']
              rfl
            have hx' : x ∈ t' := htail ▸ hsub hx
            exact fun hxe => hnot' (hxe ▸ hx')
      · exact Or.inl rfl
